import Mathlib

set_option autoImplicit false

namespace PZBackend

/-- Local account record mirroring the Django User model fields used by the
repository: identifier, username, display names, email, active flag, staff
flag, and whether the password is usable. -/
structure User where
  id : Nat
  username : String
  first_name : String
  last_name : String
  email : String
  is_active : Bool
  is_staff : Bool
  has_usable_password : Bool
deriving Repr, DecidableEq

/-- Caller of an API request: either anonymous or an authenticated user,
mirroring request.user together with request.user.is_authenticated. -/
inductive Requester where
  | anon
  | auth (u : User)
deriving Repr, DecidableEq

/-- Shallow embedding of IsStaffUser.has_permission from api/permissions.py.
The code returns request.user and request.user.is_authenticated, with the
request.user.is_staff conjunct commented out, so any authenticated requester
passes regardless of the staff flag. -/
def IsStaffUser_has_permission : Requester → Bool
  | .anon => false
  | .auth _ => true

/-- Embedding of rest_framework IsAuthenticated.has_permission: passes
exactly for authenticated requesters. -/
def IsAuthenticated_has_permission : Requester → Bool
  | .anon => false
  | .auth _ => true

/-- Combined permission gate for the permission_classes list
[IsAuthenticated, IsStaffUser] shared by UserViewSet, InventoryViewSet and
InventoryItemViewSet. -/
def apiGate (r : Requester) : Bool :=
  IsAuthenticated_has_permission r && IsStaffUser_has_permission r

/-- Inventory record from api/models.py: name, creation date, and the owning
user stored as a foreign key. -/
structure Inventory where
  id : Nat
  name : String
  date : Nat
  user : Nat
deriving Repr, DecidableEq

/-- InventoryItem record from api/models.py with its descriptive fields; the
owning inventory is a foreign key, monetary value is kept as an integer
number of hundredths. -/
structure InventoryItem where
  id : Nat
  inventory : Nat
  department : Int
  asset_group : Int
  category : String
  inventory_number : String
  asset_component : Int
  sub_number : Int
  acquisition_date : Nat
  asset_description : String
  quantity : Int
  initial_value : Int
  lastInventoryRoom : String
  currentRoom : Option String
  scanned : Option Bool
deriving Repr, DecidableEq

/-- Persistent store of the backend: user, inventory and item tables plus the
bearer token table keyed by user id. -/
structure State where
  users : List User
  inventories : List Inventory
  items : List InventoryItem
  tokens : List (Nat × String)
deriving Repr, DecidableEq

/-- Client payload for creating or updating an InventoryItem, mirroring the
writable fields of InventoryItemSerializer; the inventory is referenced by
primary key. -/
structure ItemPayload where
  inventory : Nat
  department : Int
  asset_group : Int
  category : String
  inventory_number : String
  asset_component : Int
  sub_number : Int
  acquisition_date : Nat
  asset_description : String
  quantity : Int
  initial_value : Int
  lastInventoryRoom : String
  currentRoom : Option String
  scanned : Option Bool
deriving Repr, DecidableEq

/-- Materialize an item row from a payload under a fresh primary key. -/
def mkItem (newId : Nat) (p : ItemPayload) : InventoryItem :=
  { id := newId, inventory := p.inventory, department := p.department,
    asset_group := p.asset_group, category := p.category,
    inventory_number := p.inventory_number, asset_component := p.asset_component,
    sub_number := p.sub_number, acquisition_date := p.acquisition_date,
    asset_description := p.asset_description, quantity := p.quantity,
    initial_value := p.initial_value, lastInventoryRoom := p.lastInventoryRoom,
    currentRoom := p.currentRoom, scanned := p.scanned }

/-- Fresh primary key for the item table. -/
def nextItemId (st : State) : Nat :=
  (st.items.map (fun it => it.id)).foldr Nat.max 0 + 1

/-- Fresh primary key for the inventory table. -/
def nextInvId (st : State) : Nat :=
  (st.inventories.map (fun inv => inv.id)).foldr Nat.max 0 + 1

/-- Assign consecutive fresh primary keys to a list of item payloads. -/
def assignIds (start : Nat) : List ItemPayload → List InventoryItem
  | [] => []
  | p :: ps => mkItem start p :: assignIds (start + 1) ps

/-- Owner (user id) of the inventory with the given id, following the
foreign key as a lookup in the inventory table. -/
def invOwner (st : State) (invId : Nat) : Option Nat :=
  (st.inventories.find? (fun inv => inv.id == invId)).map (fun inv => inv.user)

/-- Embedding of InventoryItemViewSet.get_queryset: anonymous requesters get
an empty set; authenticated requesters see items whose inventory they own,
optionally narrowed by the inventory_id query parameter. -/
def itemQueryset (st : State) (r : Requester) (inventoryIdParam : Option Nat) :
    List InventoryItem :=
  match r with
  | .anon => []
  | .auth u =>
    let base := st.items.filter (fun it => invOwner st it.inventory == some u.id)
    match inventoryIdParam with
    | none => base
    | some j => base.filter (fun it => it.inventory == j)

/-- Outcome of an item endpoint call. -/
inductive ItemOpResult where
  | unauthorizedRes
  | validationError
  | forbiddenRes (offendingInventory : Option Nat)
  | notFoundRes
  | createdRes (newItems : List InventoryItem)
  | updatedRes (item : InventoryItem)
deriving Repr, DecidableEq

/-- Embedding of the single-object item create path: permission gate, then
serializer validation (the inventory primary key must resolve), then
InventoryItemViewSet.perform_create, which raises PermissionDenied when the
target inventory is not owned by the requester and otherwise saves. -/
def itemCreateOne (st : State) (r : Requester) (p : ItemPayload) :
    ItemOpResult × State :=
  match r with
  | .anon => (.unauthorizedRes, st)
  | .auth u =>
    match st.inventories.find? (fun inv => inv.id == p.inventory) with
    | none => (.validationError, st)
    | some inv =>
      if inv.user ≠ u.id then
        (.forbiddenRes none, st)
      else
        let it := mkItem (nextItemId st) p
        (.createdRes [it], { st with items := st.items ++ [it] })

/-- Structural validation of a bulk payload, as performed by the many-object
serializer: every element must name an existing inventory; returns the
resolved inventories in payload order. -/
def validateAll (st : State) : List ItemPayload → Option (List Inventory)
  | [] => some []
  | p :: ps =>
    match st.inventories.find? (fun inv => inv.id == p.inventory) with
    | none => none
    | some inv =>
      match validateAll st ps with
      | none => none
      | some invs => some (inv :: invs)

/-- Embedding of InventoryItemViewSet.create for list payloads: an empty list
is accepted with an empty result; otherwise the whole batch is validated,
then each resolved inventory is checked for ownership, the first violation
rejecting the whole batch with a 403 naming that inventory, and only when
every element passes are all items saved by perform_bulk_create. -/
def itemCreateBulk (st : State) (r : Requester) (ps : List ItemPayload) :
    ItemOpResult × State :=
  match r with
  | .anon => (.unauthorizedRes, st)
  | .auth u =>
    if ps.isEmpty then (.createdRes [], st)
    else
      match validateAll st ps with
      | none => (.validationError, st)
      | some invs =>
        match invs.find? (fun inv => inv.user != u.id) with
        | some inv => (.forbiddenRes (some inv.id), st)
        | none =>
          let newItems := assignIds (nextItemId st) ps
          (.createdRes newItems, { st with items := st.items ++ newItems })

/-- Embedding of the item update path: ModelViewSet.update fetches the object
through get_queryset, so only items the requester owns are reachable, then
validates the payload; perform_update is not overridden, so the default save
runs without re-checking ownership of the new target inventory. -/
def itemUpdate (st : State) (r : Requester) (itemId : Nat) (p : ItemPayload) :
    ItemOpResult × State :=
  match r with
  | .anon => (.unauthorizedRes, st)
  | .auth u =>
    match (itemQueryset st (.auth u) none).find? (fun it => it.id == itemId) with
    | none => (.notFoundRes, st)
    | some it =>
      match st.inventories.find? (fun inv => inv.id == p.inventory) with
      | none => (.validationError, st)
      | some _ =>
        let it2 := mkItem it.id p
        (.updatedRes it2,
         { st with items := st.items.map (fun x => if x.id == itemId then it2 else x) })

/-- Client payload for creating or updating an Inventory; the user field
carries any client-supplied owner, which InventorySerializer declares
read-only. -/
structure InventoryPayload where
  name : String
  date : Nat
  user : Option Nat
deriving Repr, DecidableEq

/-- Outcome of an inventory endpoint call. -/
inductive InvOpResult where
  | unauthorizedInv
  | notFoundInv
  | listInv (invs : List Inventory)
  | createdInv (inv : Inventory)
  | updatedInv (inv : Inventory)
deriving Repr, DecidableEq

/-- Embedding of InventoryViewSet.get_queryset: inventories owned by the
authenticated requester, the empty set for anonymous requesters. -/
def inventoryQueryset (st : State) (r : Requester) : List Inventory :=
  match r with
  | .anon => []
  | .auth u => st.inventories.filter (fun inv => inv.user == u.id)

/-- Embedding of InventoryViewSet create: perform_create saves with the
requesting user as owner; the client-supplied owner field is read-only in the
serializer and therefore never reaches the saved row. -/
def inventoryCreate (st : State) (r : Requester) (p : InventoryPayload) :
    InvOpResult × State :=
  match r with
  | .anon => (.unauthorizedInv, st)
  | .auth u =>
    let inv : Inventory := { id := nextInvId st, name := p.name, date := p.date, user := u.id }
    (.createdInv inv, { st with inventories := st.inventories ++ [inv] })

/-- Embedding of InventoryViewSet update: the object is fetched through the
owner-scoped queryset and only the writable fields name and date are set;
the owner cannot change. -/
def inventoryUpdate (st : State) (r : Requester) (invId : Nat) (p : InventoryPayload) :
    InvOpResult × State :=
  match r with
  | .anon => (.unauthorizedInv, st)
  | .auth u =>
    match (inventoryQueryset st (.auth u)).find? (fun inv => inv.id == invId) with
    | none => (.notFoundInv, st)
    | some inv0 =>
      let inv1 : Inventory := { inv0 with name := p.name, date := p.date }
      (.updatedInv inv1,
       { st with inventories := st.inventories.map (fun x => if x.id == invId then inv1 else x) })

/-- Client payload for updating a User through UserSerializer, whose writable
fields are username and email. -/
structure UserPayload where
  username : String
  email : String
deriving Repr, DecidableEq

/-- Outcome of a user endpoint call. -/
inductive UserOpResult where
  | unauthorizedUser
  | notFoundUser
  | listUsers (us : List User)
  | oneUser (u : User)
  | deletedUser
deriving Repr, DecidableEq

/-- Embedding of UserViewSet list: the queryset is User.objects.all with no
owner scoping, so the only gate is the permission pair. -/
def userList (st : State) (r : Requester) : UserOpResult :=
  if apiGate r then .listUsers st.users else .unauthorizedUser

/-- Embedding of UserViewSet retrieve: looks up any user by primary key. -/
def userRetrieve (st : State) (r : Requester) (uid : Nat) : UserOpResult :=
  if apiGate r then
    match st.users.find? (fun u => u.id == uid) with
    | none => .notFoundUser
    | some u => .oneUser u
  else .unauthorizedUser

/-- Embedding of UserViewSet update: sets the writable serializer fields on
any user looked up by primary key. -/
def userUpdate (st : State) (r : Requester) (uid : Nat) (p : UserPayload) :
    UserOpResult × State :=
  if apiGate r then
    match st.users.find? (fun u => u.id == uid) with
    | none => (.notFoundUser, st)
    | some u0 =>
      let u1 : User := { u0 with username := p.username, email := p.email }
      (.oneUser u1, { st with users := st.users.map (fun x => if x.id == uid then u1 else x) })
  else (.unauthorizedUser, st)

/-- Embedding of UserViewSet destroy: deletes any user by primary key, with
the on_delete CASCADE removing their inventories and the items inside. -/
def userDelete (st : State) (r : Requester) (uid : Nat) : UserOpResult × State :=
  if apiGate r then
    match st.users.find? (fun u => u.id == uid) with
    | none => (.notFoundUser, st)
    | some _ =>
      let keptInvs := st.inventories.filter (fun inv => inv.user != uid)
      let keptInvIds := keptInvs.map (fun inv => inv.id)
      (.deletedUser,
       { st with
           users := st.users.filter (fun u => u.id != uid),
           inventories := keptInvs,
           items := st.items.filter (fun it => keptInvIds.contains it.inventory) })
  else (.unauthorizedUser, st)

/-- Python truthiness of an optional string: a missing value and the empty
string are both falsy. -/
def truthyS : Option String → Bool
  | none => false
  | some s => !s.isEmpty

/-- First phase of OAuthCallbackView.get: either the 400 short-circuit for a
missing credential, or the network token exchange carrying the credentials. -/
inductive CallbackGate where
  | missingCredentialError
  | tokenExchange (tempKey tempSecret verifier : String)
deriving Repr, DecidableEq

/-- Embedding of the credential gate at the top of OAuthCallbackView.get:
when the session token key, the session token secret, or the oauth_verifier
query parameter is falsy, the view returns a 400 response at once; only
otherwise does it build the OAuth1 session and attempt the network token
exchange, represented here by the tokenExchange constructor. -/
def oauthCallbackGate (tempKey tempSecret verifier : Option String) : CallbackGate :=
  if !truthyS tempKey || !truthyS tempSecret || !truthyS verifier then
    .missingCredentialError
  else
    .tokenExchange (tempKey.getD "") (tempSecret.getD "") (verifier.getD "")

/-- Profile attributes fetched from the identity provider, as read from the
user_info JSON body. -/
structure Profile where
  id : Option String
  first_name : Option String
  last_name : Option String
  email : Option String
  staff_status : Option Int
deriving Repr, DecidableEq

/-- Embedding of the staff flag derivation in OAuthCallbackView.get: the flag
starts false and becomes true when staff_status equals 1 or 2. -/
def isStaffMember (p : Profile) : Bool :=
  p.staff_status == some 1 || p.staff_status == some 2

/-- Python expression user_info.get email or the empty string: a missing or
empty email maps to the empty string. -/
def emailOrEmpty : Option String → String
  | none => ""
  | some s => if s.isEmpty then "" else s

/-- The user_defaults dictionary built from the USOS profile. -/
structure UserDefaults where
  first_name : String
  last_name : String
  email : String
  is_active : Bool
  is_staff : Bool
deriving Repr, DecidableEq

/-- Embedding of the user_defaults construction in OAuthCallbackView.get. -/
def userDefaults (p : Profile) : UserDefaults :=
  { first_name := p.first_name.getD ""
    last_name := p.last_name.getD ""
    email := emailOrEmpty p.email
    is_active := true
    is_staff := isStaffMember p }

/-- Field names whose current value differs from the reconciled defaults, in
the iteration order of the user_defaults dictionary; mirrors the
update_fields_list loop of the existing-user branch. -/
def updateFieldsList (u : User) (d : UserDefaults) : List String :=
  (if u.first_name = d.first_name then [] else ["first_name"]) ++
  (if u.last_name = d.last_name then [] else ["last_name"]) ++
  (if u.email = d.email then [] else ["email"]) ++
  (if u.is_active = d.is_active then [] else ["is_active"]) ++
  (if u.is_staff = d.is_staff then [] else ["is_staff"])

/-- Result of setting every user_defaults field on an existing user. -/
def applyDefaults (u : User) (d : UserDefaults) : User :=
  { u with first_name := d.first_name, last_name := d.last_name,
           email := d.email, is_active := d.is_active, is_staff := d.is_staff }

/-- Outcome of the user provisioning block. -/
inductive ReconcileResult where
  | missingExternalId
  | success (store : List User) (u : User) (created : Bool) (wrote : Bool)
deriving Repr, DecidableEq

/-- Fresh primary key for the user table. -/
def nextUserId (us : List User) : Nat :=
  (us.map (fun u => u.id)).foldr Nat.max 0 + 1

/-- Stable local username derived from the external identifier. -/
def usosUsername (p : Profile) : String :=
  "usos_" ++ p.id.getD ""

/-- User created on first login: the defaults with an unusable password, as
set by get_or_create followed by set_unusable_password. -/
def newUserFrom (store : List User) (p : Profile) : User :=
  { id := nextUserId store, username := usosUsername p,
    first_name := (userDefaults p).first_name, last_name := (userDefaults p).last_name,
    email := (userDefaults p).email, is_active := (userDefaults p).is_active,
    is_staff := (userDefaults p).is_staff, has_usable_password := false }

/-- Existing user after the field loop and the trailing active check: every
defaults field is set, and the active flag is forced on if still off. -/
def updatedUser (u0 : User) (d : UserDefaults) : User :=
  if (applyDefaults u0 d).is_active then applyDefaults u0 d
  else { applyDefaults u0 d with is_active := true }

/-- Names collected into update_fields_list for an existing user, including
the trailing entry added when the active flag had to be forced on. -/
def updatedFieldNames (u0 : User) (d : UserDefaults) : List String :=
  if (applyDefaults u0 d).is_active then updateFieldsList u0 d
  else updateFieldsList u0 d ++ ["is_active"]

/-- Existing-user branch of the provisioning block: mutate the stored row,
report no creation, and write back exactly when the collected field list is
nonempty. -/
def reconcileExisting (store : List User) (p : Profile) (u0 : User) : ReconcileResult :=
  .success
    (store.map (fun v => if v.username == usosUsername p then updatedUser u0 (userDefaults p) else v))
    (updatedUser u0 (userDefaults p)) false
    (!(updatedFieldNames u0 (userDefaults p)).isEmpty)

/-- Embedding of the user provisioning block of OAuthCallbackView.get: abort
when the external id is falsy; get_or_create on the derived username, a new
user taking the defaults with an unusable password; an existing user has each
defaults field compared and set only when it differs, the active flag is
forced back on if still off after the loop, and a save happens only when the
collected field list is nonempty. -/
def reconcile (store : List User) (p : Profile) : ReconcileResult :=
  if !truthyS p.id then .missingExternalId
  else
    match store.find? (fun u => u.username == usosUsername p) with
    | none => .success (store ++ [newUserFrom store p]) (newUserFrom store p) true true
    | some u0 => reconcileExisting store p u0

/-- Embedding of Token.objects.get_or_create keyed by user: reuse an existing
token bound to the user, otherwise append a new record with the supplied
fresh key. -/
def getOrCreateToken (toks : List (Nat × String)) (uid : Nat) (freshKey : String) :
    String × List (Nat × String) :=
  match toks.find? (fun t => t.1 == uid) with
  | some t => (t.2, toks)
  | none => (freshKey, toks ++ [(uid, freshKey)])

/-- Concrete authenticated non-staff user used by concrete evaluations. -/
def aliceU : User :=
  { id := 1, username := "usos_100", first_name := "Alice", last_name := "A",
    email := "", is_active := true, is_staff := false, has_usable_password := false }

/-- Concrete staff user owning the second inventory. -/
def bobU : User :=
  { id := 2, username := "usos_200", first_name := "Bob", last_name := "B",
    email := "", is_active := true, is_staff := true, has_usable_password := false }

/-- Concrete inventory owned by aliceU. -/
def inv1W : Inventory := { id := 1, name := "lab", date := 10, user := 1 }

/-- Concrete inventory owned by bobU. -/
def inv2W : Inventory := { id := 2, name := "office", date := 11, user := 2 }

/-- Concrete item payload targeting the given inventory. -/
def payW (invId : Nat) : ItemPayload :=
  { inventory := invId, department := 3, asset_group := 4, category := "desk",
    inventory_number := "N1", asset_component := 5, sub_number := 0,
    acquisition_date := 12, asset_description := "a desk", quantity := 1,
    initial_value := 1000, lastInventoryRoom := "r1", currentRoom := none,
    scanned := none }

/-- Concrete item stored in inventory 1. -/
def item1W : InventoryItem := mkItem 1 (payW 1)

/-- Concrete store with two users, their inventories and one item. -/
def stW : State :=
  { users := [aliceU, bobU], inventories := [inv1W, inv2W], items := [item1W], tokens := [] }

/-- C1: the claim says a staff-only endpoint rejects an authenticated caller
whose staff flag is off with Forbidden before the operation runs; evaluated
on the embedded code, the permission class passes any authenticated
requester, because the staff conjunct of IsStaffUser.has_permission is
commented out, and the guarded user list executes for a non-staff caller. -/
theorem c1_staff_gate_disabled :
    aliceU.is_staff = false ∧
    IsStaffUser_has_permission (.auth aliceU) = true ∧
    userList stW (.auth aliceU) = .listUsers [aliceU, bobU] := by
  decide

/-- C8: when the session token key, the session token secret, or the
oauth_verifier query parameter is absent, the callback gate returns the 400
missing-credential response, so no token exchange is attempted. -/
theorem c8_missing_credential_short_circuit (tk ts v : Option String)
    (h : tk = none ∨ ts = none ∨ v = none) :
    oauthCallbackGate tk ts v = .missingCredentialError := by
  rcases h with h | h | h <;> subst h <;>
    simp [oauthCallbackGate, truthyS]

/-- Witness for C8 at a callback with a missing verifier. -/
theorem c8_witness :
    oauthCallbackGate (some "tempKey") (some "tempSecret") none = .missingCredentialError :=
  c8_missing_credential_short_circuit (some "tempKey") (some "tempSecret") none
    (Or.inr (Or.inr rfl))

/-- C9: bearer token issuance is find-or-create per user, so a repeat mobile
login returns the token value of the first login and leaves the token table
unchanged, whatever fresh key the second call would have minted. -/
theorem c9_token_reuse (toks : List (Nat × String)) (uid : Nat) (f1 f2 : String) :
    getOrCreateToken (getOrCreateToken toks uid f1).2 uid f2 =
      getOrCreateToken toks uid f1 := by
  unfold getOrCreateToken
  cases hf : toks.find? (fun t => t.1 == uid) with
  | some t => simp [hf]
  | none =>
    simp only [hf, List.find?_append, Option.none_or]
    simp [List.find?_cons_of_pos]

/-- C10: the user endpoints are unscoped: an arbitrary authenticated caller
receives the full user table from list, and can retrieve, update, or delete
any user looked up by primary key. -/
theorem c10_user_endpoints_unscoped (st : State) (u : User) :
    userList st (.auth u) = .listUsers st.users ∧
    (∀ uid u0, st.users.find? (fun x => x.id == uid) = some u0 →
       userRetrieve st (.auth u) uid = .oneUser u0) ∧
    (∀ uid u0 p, st.users.find? (fun x => x.id == uid) = some u0 →
       (userUpdate st (.auth u) uid p).1 =
         .oneUser { u0 with username := p.username, email := p.email }) ∧
    (∀ uid u0, st.users.find? (fun x => x.id == uid) = some u0 →
       (userDelete st (.auth u) uid).1 = .deletedUser ∧
       ∀ x ∈ (userDelete st (.auth u) uid).2.users, x.id ≠ uid) := by
  refine ⟨rfl, ?_, ?_, ?_⟩
  · intro uid u0 h
    simp [userRetrieve, apiGate, IsAuthenticated_has_permission,
      IsStaffUser_has_permission, h]
  · intro uid u0 p h
    simp [userUpdate, apiGate, IsAuthenticated_has_permission,
      IsStaffUser_has_permission, h]
  · intro uid u0 h
    refine ⟨?_, ?_⟩
    · simp [userDelete, apiGate, IsAuthenticated_has_permission,
        IsStaffUser_has_permission, h]
    · intro x hx
      simp [userDelete, apiGate, IsAuthenticated_has_permission,
        IsStaffUser_has_permission, h, List.mem_filter] at hx
      exact hx.2

/-- Witness for C10: the non-staff caller aliceU retrieves bobU. -/
theorem c10_witness :
    userRetrieve stW (.auth aliceU) 2 = .oneUser bobU :=
  (c10_user_endpoints_unscoped stW aliceU).2.1 2 bobU (by decide)

/-- C4: an inventory created by an authenticated principal is stored with
that principal as owner, whatever client-supplied owner the payload carries,
and the update path keeps every stored inventory attached to an owner some
inventory already had: no operation makes an inventory owned by anyone other
than its creator. -/
theorem c4_inventory_owner_forced (st : State) (u : User) (p : InventoryPayload) :
    ((inventoryCreate st (.auth u) p).1 =
        .createdInv { id := nextInvId st, name := p.name, date := p.date, user := u.id } ∧
      (inventoryCreate st (.auth u) p).2.inventories =
        st.inventories ++ [{ id := nextInvId st, name := p.name, date := p.date, user := u.id }]) ∧
    (∀ invId q inv2, inv2 ∈ (inventoryUpdate st (.auth u) invId q).2.inventories →
       ∃ inv1, inv1 ∈ st.inventories ∧ inv2.id = inv1.id ∧ inv2.user = inv1.user) := by
  refine ⟨⟨rfl, rfl⟩, ?_⟩
  intro invId q inv2 h2
  simp only [inventoryUpdate] at h2
  cases hf : (inventoryQueryset st (.auth u)).find? (fun inv => inv.id == invId) with
  | none =>
    simp only [hf] at h2
    exact ⟨inv2, h2, rfl, rfl⟩
  | some inv0 =>
    simp only [hf, List.mem_map] at h2
    obtain ⟨x, hx, hxe⟩ := h2
    by_cases hm : (x.id == invId) = true
    · have h0 : inv0 ∈ st.inventories := by
        have := List.mem_of_find?_eq_some hf
        exact (List.mem_filter.mp this).1
      refine ⟨inv0, h0, ?_, ?_⟩ <;> { rw [← hxe]; simp [hm] }
    · refine ⟨x, hx, ?_, ?_⟩ <;> { rw [← hxe]; simp [hm] }

/-- Concrete update payload carrying a client-supplied owner field. -/
def updPayW : InventoryPayload := { name := "renamed", date := 99, user := some 2 }

/-- Witness for C4: aliceU updates inventory 1 with a foreign owner in the
payload, and the stored row keeps an owner already present in the store. -/
theorem c4_witness :
    ∃ inv1, inv1 ∈ stW.inventories ∧
      ({ id := 1, name := "renamed", date := 99, user := 1 } : Inventory).id = inv1.id ∧
      ({ id := 1, name := "renamed", date := 99, user := 1 } : Inventory).user = inv1.user :=
  (c4_inventory_owner_forced stW aliceU updPayW).2 1 updPayW
    { id := 1, name := "renamed", date := 99, user := 1 } (by decide)

/-- C5: for an authenticated caller the item list is exactly the items whose
inventory the caller owns, narrowed by the optional inventory filter; a
filter naming an inventory the caller does not own yields the empty list
rather than an error, and an anonymous caller always gets the empty list. -/
theorem c5_item_list_scoped (st : State) (u : User) (filt : Option Nat) :
    (∀ it, it ∈ itemQueryset st (.auth u) filt ↔
       (it ∈ st.items ∧ invOwner st it.inventory = some u.id ∧
        ∀ j, filt = some j → it.inventory = j)) ∧
    (∀ j, filt = some j → invOwner st j ≠ some u.id →
       itemQueryset st (.auth u) filt = []) ∧
    itemQueryset st .anon filt = [] := by
  refine ⟨?_, ?_, rfl⟩
  · intro it
    cases filt with
    | none => simp [itemQueryset, List.mem_filter]
    | some j =>
      simp only [itemQueryset, List.mem_filter, beq_iff_eq, Option.some.injEq]
      constructor
      · rintro ⟨⟨hmem, hown⟩, hinv⟩
        exact ⟨hmem, hown, fun j2 hj2 => hj2 ▸ hinv⟩
      · rintro ⟨hmem, hown, hall⟩
        exact ⟨⟨hmem, hown⟩, hall j rfl⟩
  · intro j hj hown
    subst hj
    simp only [itemQueryset]
    rw [List.filter_eq_nil_iff]
    intro it hit
    have h1 := (List.mem_filter.mp hit).2
    simp only [beq_iff_eq] at h1 ⊢
    intro he
    exact hown (he ▸ h1)

/-- Witness for C5: aliceU lists items filtered to inventory 2, which bobU
owns, and receives the empty list. -/
theorem c5_witness :
    itemQueryset stW (.auth aliceU) (some 2) = [] :=
  (c5_item_list_scoped stW aliceU (some 2)).2.1 2 rfl (by decide)

/-- C3 counterexample: the claim also covers the modify path, but the update
endpoint does not re-check ownership of the new target inventory; aliceU
moves her item into inventory 2, owned by bobU, and the write persists
instead of failing with Forbidden. -/
theorem c3_counterexample :
    invOwner stW (payW 2).inventory = some bobU.id ∧
    bobU.id ≠ aliceU.id ∧
    (itemUpdate stW (.auth aliceU) 1 (payW 2)).1 = .updatedRes (mkItem 1 (payW 2)) ∧
    (itemUpdate stW (.auth aliceU) 1 (payW 2)).2 ≠ stW := by
  decide

/-- C3 as amended: a single-item create whose target inventory is owned by
someone other than the caller fails with Forbidden and leaves the store
unchanged; the update path performs no such re-check. -/
theorem c3_create_cross_tenant_forbidden (st : State) (u : User) (p : ItemPayload)
    (inv : Inventory)
    (hfind : st.inventories.find? (fun i => i.id == p.inventory) = some inv)
    (hown : inv.user ≠ u.id) :
    itemCreateOne st (.auth u) p = (.forbiddenRes none, st) := by
  unfold itemCreateOne
  rw [hfind]
  simp [hown]

/-- Witness for C3: aliceU creates a single item in inventory 2 and is
rejected with Forbidden while the store is unchanged. -/
theorem c3_witness :
    itemCreateOne stW (.auth aliceU) (payW 2) = (.forbiddenRes none, stW) :=
  c3_create_cross_tenant_forbidden stW aliceU (payW 2) inv2W (by decide) (by decide)

/-- C2: bulk item creation is atomic: once the batch validates, the first
element whose resolved inventory is not owned by the caller rejects the
whole request with a 403 naming that inventory and the store is unchanged;
and in every case either the store is untouched or the whole batch validated
with every target inventory owned by the caller. -/
theorem c2_bulk_atomic :
    (∀ (st : State) (u : User) (ps : List ItemPayload) (invs : List Inventory)
        (inv0 : Inventory),
       validateAll st ps = some invs →
       invs.find? (fun inv => inv.user != u.id) = some inv0 →
       itemCreateBulk st (.auth u) ps = (.forbiddenRes (some inv0.id), st)) ∧
    (∀ (st : State) (u : User) (ps : List ItemPayload),
       (itemCreateBulk st (.auth u) ps).2 = st ∨
       (∃ invs, validateAll st ps = some invs ∧ ∀ inv ∈ invs, inv.user = u.id)) := by
  constructor
  · intro st u ps invs inv0 hval hfind
    cases ps with
    | nil =>
      simp only [validateAll, Option.some.injEq] at hval
      subst hval
      simp at hfind
    | cons p ps =>
      simp only [itemCreateBulk, List.isEmpty_cons, Bool.false_eq_true, if_false, hval, hfind]
  · intro st u ps
    by_cases hps : ps.isEmpty
    · left
      simp [itemCreateBulk, hps]
    · cases hval : validateAll st ps with
      | none =>
        left
        simp [itemCreateBulk, hps, hval]
      | some invs =>
        cases hfind : invs.find? (fun inv => inv.user != u.id) with
        | some inv =>
          left
          simp [itemCreateBulk, hps, hval, hfind]
        | none =>
          right
          refine ⟨invs, rfl, fun inv hinv => ?_⟩
          have h := List.find?_eq_none.mp hfind inv hinv
          simpa [bne_iff_ne] using h

/-- Witness for C2: a two-element batch from aliceU whose second element
targets inventory 2 is rejected whole with a 403 naming inventory 2, the
store unchanged. -/
theorem c2_witness :
    itemCreateBulk stW (.auth aliceU) [payW 1, payW 2] =
      (.forbiddenRes (some 2), stW) :=
  c2_bulk_atomic.1 stW aliceU [payW 1, payW 2] [inv1W, inv2W] inv2W
    (by decide) (by decide)

theorem applyDefaults_idem (u : User) (d : UserDefaults) :
    applyDefaults (applyDefaults u d) d = applyDefaults u d := rfl

theorem updateFieldsList_applyDefaults (u : User) (d : UserDefaults) :
    updateFieldsList (applyDefaults u d) d = [] := by
  simp [updateFieldsList, applyDefaults]

theorem updatedUser_eq (u : User) (p : Profile) :
    updatedUser u (userDefaults p) = applyDefaults u (userDefaults p) := rfl

theorem updatedUser_is_active (u : User) (p : Profile) :
    (updatedUser u (userDefaults p)).is_active = true := rfl

theorem updatedUser_is_staff (u0 : User) (d : UserDefaults) :
    (updatedUser u0 d).is_staff = d.is_staff := by
  unfold updatedUser
  split <;> rfl

theorem updatedFieldNames_eq (u : User) (p : Profile) :
    updatedFieldNames u (userDefaults p) = updateFieldsList u (userDefaults p) := rfl

theorem find?_map_replace (l : List User) (uname : String) (u0 w : User)
    (h : l.find? (fun u => u.username == uname) = some u0)
    (hw : (w.username == uname) = true) :
    (l.map (fun v => if v.username == uname then w else v)).find?
        (fun u => u.username == uname) = some w := by
  induction l with
  | nil => simp at h
  | cons a l ih =>
    simp only [List.map_cons]
    by_cases ha : (a.username == uname) = true
    · rw [if_pos ha]
      exact List.find?_cons_of_pos (p := fun (u : User) => u.username == uname) _ hw
    · rw [if_neg ha, List.find?_cons_of_neg (p := fun (u : User) => u.username == uname) _ ha]
      rw [List.find?_cons_of_neg (p := fun (u : User) => u.username == uname) _ ha] at h
      exact ih h

theorem map_replace_self (l : List User) (uname : String) (w : User)
    (h : ∀ v ∈ l, (v.username == uname) = true → v = w) :
    l.map (fun v => if v.username == uname then w else v) = l := by
  induction l with
  | nil => rfl
  | cons a l ih =>
    simp only [List.map_cons]
    have ht : l.map (fun v => if v.username == uname then w else v) = l :=
      ih fun v hv => h v (List.mem_cons_of_mem a hv)
    by_cases ha : (a.username == uname) = true
    · rw [if_pos ha, ht, h a (List.mem_cons_self a l) ha]
    · rw [if_neg ha, ht]

theorem reconcile_of_find_none (store : List User) (p : Profile)
    (hid : truthyS p.id = true)
    (hfind : store.find? (fun u => u.username == usosUsername p) = none) :
    reconcile store p =
      .success (store ++ [newUserFrom store p]) (newUserFrom store p) true true := by
  simp [reconcile, hid, hfind]

theorem reconcile_of_find_some (store : List User) (p : Profile) (u0 : User)
    (hid : truthyS p.id = true)
    (hfind : store.find? (fun u => u.username == usosUsername p) = some u0) :
    reconcile store p = reconcileExisting store p u0 := by
  simp [reconcile, hid, hfind]

theorem newUserFrom_matches (store : List User) (p : Profile) :
    ((newUserFrom store p).username == usosUsername p) = true :=
  show (usosUsername p == usosUsername p) = true from beq_self_eq_true _

theorem reconcile_fixpoint (store : List User) (p : Profile) (u1 : User)
    (hid : truthyS p.id = true)
    (hfind : store.find? (fun u => u.username == usosUsername p) = some u1)
    (hfix : applyDefaults u1 (userDefaults p) = u1)
    (hrep : ∀ v ∈ store, (v.username == usosUsername p) = true → v = u1) :
    reconcile store p = .success store u1 false false := by
  have hw : (!(updatedFieldNames u1 (userDefaults p)).isEmpty) = false := by
    rw [updatedFieldNames_eq]
    conv_lhs => rw [← hfix]
    rw [updateFieldsList_applyDefaults]
    rfl
  rw [reconcile_of_find_some store p u1 hid hfind]
  unfold reconcileExisting
  rw [updatedUser_eq, hfix, map_replace_self store (usosUsername p) u1 hrep, hw]

/-- C6: with a present external id, reconciliation is idempotent: running it
again on its own output performs no write and returns the same store and
user; the reconciled user always ends active, and a repeat login that finds
an inactive stored user writes and forces the active flag back on. -/
theorem c6_reconcile_idempotent (store : List User) (p : Profile)
    (hid : truthyS p.id = true) :
    (∀ st1 u1 c1 w1, reconcile store p = .success st1 u1 c1 w1 →
       reconcile st1 p = .success st1 u1 false false) ∧
    (∀ st1 u1 c1 w1, reconcile store p = .success st1 u1 c1 w1 →
       u1.is_active = true) ∧
    (∀ u0, store.find? (fun u => u.username == usosUsername p) = some u0 →
       u0.is_active = false →
       ∃ st1 u1, reconcile store p = .success st1 u1 false true ∧ u1.is_active = true) := by
  refine ⟨?_, ?_, ?_⟩
  · intro st1 u1 c1 w1 h
    cases hfind : store.find? (fun u => u.username == usosUsername p) with
    | none =>
      rw [reconcile_of_find_none store p hid hfind] at h
      simp only [ReconcileResult.success.injEq] at h
      obtain ⟨h1, h2, -, -⟩ := h
      subst h1
      subst h2
      apply reconcile_fixpoint _ _ _ hid
      · rw [List.find?_append, hfind, Option.none_or]
        exact List.find?_cons_of_pos (p := fun (u : User) => u.username == usosUsername p) _
          (newUserFrom_matches store p)
      · rfl
      · intro v hv hvm
        rcases List.mem_append.mp hv with hv | hv
        · exact absurd hvm (List.find?_eq_none.mp hfind v hv)
        · simpa using hv
    | some u0 =>
      rw [reconcile_of_find_some store p u0 hid hfind] at h
      unfold reconcileExisting at h
      simp only [ReconcileResult.success.injEq] at h
      obtain ⟨h1, h2, -, -⟩ := h
      subst h1
      subst h2
      have hm0 := List.find?_some hfind
      apply reconcile_fixpoint _ _ _ hid
      · exact find?_map_replace store (usosUsername p) u0 _ hfind hm0
      · rw [updatedUser_eq, applyDefaults_idem]
      · intro v hv hvm
        obtain ⟨x, hx, hxe⟩ := List.mem_map.mp hv
        by_cases hxm : (x.username == usosUsername p) = true
        · rw [← hxe, if_pos hxm]
        · rw [if_neg hxm] at hxe
          subst hxe
          exact absurd hvm hxm
  · intro st1 u1 c1 w1 h
    cases hfind : store.find? (fun u => u.username == usosUsername p) with
    | none =>
      rw [reconcile_of_find_none store p hid hfind] at h
      simp only [ReconcileResult.success.injEq] at h
      obtain ⟨-, h2, -, -⟩ := h
      subst h2
      rfl
    | some u0 =>
      rw [reconcile_of_find_some store p u0 hid hfind] at h
      unfold reconcileExisting at h
      simp only [ReconcileResult.success.injEq] at h
      obtain ⟨-, h2, -, -⟩ := h
      subst h2
      exact updatedUser_is_active u0 p
  · intro u0 hfind hact
    have hmem : "is_active" ∈ updateFieldsList u0 (userDefaults p) := by
      simp [updateFieldsList, hact, userDefaults]
    have hwrote : (!(updatedFieldNames u0 (userDefaults p)).isEmpty) = true := by
      rw [updatedFieldNames_eq,
        List.isEmpty_eq_false.mpr (List.ne_nil_of_mem hmem)]
      rfl
    refine ⟨store.map (fun v =>
        if v.username == usosUsername p then updatedUser u0 (userDefaults p) else v),
      updatedUser u0 (userDefaults p), ?_, updatedUser_is_active u0 p⟩
    rw [reconcile_of_find_some store p u0 hid hfind]
    unfold reconcileExisting
    rw [hwrote]

/-- Concrete profile with a present external id and no staff status. -/
def p6W : Profile :=
  { id := some "7", first_name := some "Ann", last_name := none, email := none,
    staff_status := none }

/-- User created by reconciling p6W against the empty store. -/
def newUser6W : User :=
  { id := 1, username := "usos_7", first_name := "Ann", last_name := "",
    email := "", is_active := true, is_staff := false, has_usable_password := false }

/-- Witness for C6: reconciling p6W a second time on the store produced by
the first run performs no write and returns the unchanged user. -/
theorem c6_witness :
    reconcile [newUser6W] p6W = .success [newUser6W] newUser6W false false :=
  (c6_reconcile_idempotent [] p6W (by decide)).1 [newUser6W] newUser6W true true
    (by decide)

/-- C7: the user produced by reconciliation carries the elevated-role flag
exactly when the profile staff_status is 1 or 2; a status of 0 or an absent
status yields a non-elevated user. -/
theorem c7_staff_status_mapping (store : List User) (p : Profile)
    (st1 : List User) (u1 : User) (c w : Bool)
    (h : reconcile store p = .success st1 u1 c w) :
    u1.is_staff = true ↔ (p.staff_status = some 1 ∨ p.staff_status = some 2) := by
  cases hid : truthyS p.id with
  | false =>
    rw [reconcile] at h
    simp [hid] at h
  | true =>
    cases hfind : store.find? (fun u => u.username == usosUsername p) with
    | none =>
      rw [reconcile_of_find_none store p hid hfind] at h
      simp only [ReconcileResult.success.injEq] at h
      obtain ⟨-, h2, -, -⟩ := h
      subst h2
      simp [newUserFrom, userDefaults, isStaffMember, beq_iff_eq]
    | some u0 =>
      rw [reconcile_of_find_some store p u0 hid hfind] at h
      unfold reconcileExisting at h
      simp only [ReconcileResult.success.injEq] at h
      obtain ⟨-, h2, -, -⟩ := h
      subst h2
      rw [updatedUser_is_staff]
      simp [userDefaults, isStaffMember, beq_iff_eq]

/-- Concrete profile of a teaching staff member. -/
def p7W : Profile :=
  { id := some "8", first_name := none, last_name := none, email := none,
    staff_status := some 2 }

/-- User created by reconciling p7W against the empty store. -/
def newUser7W : User :=
  { id := 1, username := "usos_8", first_name := "", last_name := "",
    email := "", is_active := true, is_staff := true, has_usable_password := false }

/-- Witness for C7: a profile with staff_status 2 reconciles to an elevated
user. -/
theorem c7_witness : newUser7W.is_staff = true :=
  (c7_staff_status_mapping [] p7W [newUser7W] newUser7W true true (by decide)).mpr
    (Or.inr rfl)

end PZBackend
